import Mathlib

/-!
Verification of the s2coastalbot core against its specification.

This file gives a shallow embedding, in Lean 4, of the algorithmic core of the
s2coastalbot repository:

* `get_window` — the window-clamp routine of `s2coastalbot/postprocessing.py`;
* `sentinelsat_retry_download` — the retry/backoff download wrapper of
  `s2coastalbot/sentinel2.py`, modelled with the per-attempt outcome of the
  underlying download abstracted as a function `Nat → Option α` and with the
  sleep calls replaced by an explicit accumulator of slept time units;
* the product-selection loop and history bookkeeping of `download_tci_image`
  in `s2coastalbot/sentinel2.py`, with the catalog query and the metadata
  no-data probe abstracted as function parameters;
* `postprocess_tci_image` of `s2coastalbot/postprocessing.py`, with the
  geometric operations (footprint/coastline intersection, coordinate
  transforms, raster reads) abstracted as function parameters;
* `search_nodes` of `s2coastalbot/cdse.py`, over an explicit node tree, with
  the glob match abstracted as a `String → Bool` predicate.

Python integers are mapped to `Int` (or `Nat` where the source value is a
count), `int(x / 2)` is mapped to `Int.tdiv x 2` (both truncate toward zero),
and fallible results are mapped to `Option`/`Except`.
-/

/-- Embedding of `get_window` (`s2coastalbot/postprocessing.py`).
The four sequential `if` blocks of the source are translated one by one;
`int(window_height / 2)` is `Int.tdiv window_height 2`. -/
def get_window (window_center : Int × Int) (window_width window_height : Int)
    (image_width image_height : Int) : Int × Int × Int × Int :=
  let row_start := window_center.1 - Int.tdiv window_height 2
  let row_stop := window_center.1 + Int.tdiv window_height 2
  let col_start := window_center.2 - Int.tdiv window_width 2
  let col_stop := window_center.2 + Int.tdiv window_width 2
  let row_stop1 := if row_start < 0 then row_stop + -row_start else row_stop
  let row_start1 := if row_start < 0 then row_start + -row_start else row_start
  let row_start2 :=
    if row_stop1 > image_height then row_start1 - (row_stop1 - image_height) else row_start1
  let row_stop2 :=
    if row_stop1 > image_height then row_stop1 - (row_stop1 - image_height) else row_stop1
  let col_stop1 := if col_start < 0 then col_stop + -col_start else col_stop
  let col_start1 := if col_start < 0 then col_start + -col_start else col_start
  let col_start2 :=
    if col_stop1 > image_width then col_start1 - (col_stop1 - image_width) else col_start1
  let col_stop2 :=
    if col_stop1 > image_width then col_stop1 - (col_stop1 - image_width) else col_stop1
  (row_start2, row_stop2, col_start2, col_stop2)

/-- C1 (amended): for even, positive subset sizes not exceeding the image
dimensions, the clamped window lies inside the image, is nonempty, and its
extents equal the requested subset sizes. -/
theorem get_window_bounds (c : Int × Int) (w h W H rs re cs ce : Int)
    (heq : get_window c w h W H = (rs, re, cs, ce))
    (hw0 : 0 < w) (hwe : w % 2 = 0) (hwW : w ≤ W)
    (hh0 : 0 < h) (hhe : h % 2 = 0) (hhH : h ≤ H) :
    0 ≤ rs ∧ rs < re ∧ re ≤ H ∧ re - rs = h ∧
    0 ≤ cs ∧ cs < ce ∧ ce ≤ W ∧ ce - cs = w := by
  have hw2 : Int.tdiv w 2 = w / 2 := Int.tdiv_eq_ediv (by omega) (by norm_num)
  have hh2 : Int.tdiv h 2 = h / 2 := Int.tdiv_eq_ediv (by omega) (by norm_num)
  simp only [get_window, hw2, hh2, Prod.mk.injEq] at heq
  obtain ⟨h1, h2, h3, h4⟩ := heq
  split_ifs at h1 h2 h3 h4 <;> omega

/-- Witness for `get_window_bounds` at center (5, 5), subset 4×4, image 10×10. -/
theorem get_window_bounds_witness :
    (0 : Int) ≤ 3 ∧ (3 : Int) < 7 ∧ (7 : Int) ≤ 10 ∧ (7 : Int) - 3 = 4 ∧
    (0 : Int) ≤ 3 ∧ (3 : Int) < 7 ∧ (7 : Int) ≤ 10 ∧ (7 : Int) - 3 = 4 :=
  get_window_bounds (5, 5) 4 4 10 10 3 7 3 7 (by decide) (by decide) (by decide)
    (by decide) (by decide) (by decide) (by decide)

/-- C1 counterexample: with subset sizes 1 ≤ 10, the returned window is
degenerate: `row_start = row_stop` and the row extent is 0, not 1. -/
theorem get_window_c1_counterexample :
    (1 : Int) ≤ 10 ∧ get_window (0, 0) 1 1 10 10 = (0, 0, 0, 0) ∧
    ¬((0 : Int) < 0 ∧ (0 : Int) - 0 = 1) := by decide

/-- C8 (amended): when the requested subset size strictly exceeds the image
dimension along an axis, the stop of the returned window saturates to the
image dimension but the start becomes `dimension - 2 * (size / 2)`, which is
negative whenever `2 * (size / 2) > dimension` — the window does not saturate
to `[0, dimension)`. -/
theorem get_window_oversize (c : Int × Int) (w h W H : Int)
    (hH : 0 ≤ H) (hh : H < h) (hW : 0 ≤ W) (hw : W < w) :
    get_window c w h W H = (H - 2 * Int.tdiv h 2, H, W - 2 * Int.tdiv w 2, W) := by
  have hw2 : Int.tdiv w 2 = w / 2 := Int.tdiv_eq_ediv (by omega) (by norm_num)
  have hh2 : Int.tdiv h 2 = h / 2 := Int.tdiv_eq_ediv (by omega) (by norm_num)
  simp only [get_window, hw2, hh2, Prod.mk.injEq]
  split_ifs <;> omega

/-- Witness for `get_window_oversize` at center (0, 0), subset 10×10, image 4×4. -/
theorem get_window_oversize_witness :
    get_window (0, 0) 10 10 4 4 = (4 - 2 * Int.tdiv 10 2, 4, 4 - 2 * Int.tdiv 10 2, 4) :=
  get_window_oversize (0, 0) 10 10 4 4 (by decide) (by decide) (by decide) (by decide)

/-- C8 counterexample: requested size 10 exceeds image dimension 4, and the
returned window starts at -6, not 0: the window does not saturate to the full
image extent. -/
theorem get_window_c8_counterexample :
    (4 : Int) < 10 ∧ get_window (0, 0) 10 10 4 4 = (-6, 4, -6, 4) ∧ (-6 : Int) ≠ 0 := by
  decide

/-- Embedding of the retry loop of `sentinelsat_retry_download`
(`s2coastalbot/sentinel2.py`).  `download attempt` is the outcome of the
`api.download` call on the given (0-based) attempt: `some v` models a normal
return, `none` models a raised exception.  The result carries the returned
value (`none` after the loop exhausts), the total time units slept, and the
number of attempts made.  `n` is the number of loop iterations left
(`range(9)`), `sleep_time` the current backoff delay. -/
def retry_download_go {α : Type} (download : Nat → Option α) :
    Nat → Nat → Nat → Option α × Nat × Nat
  | 0, _, _ => (none, 0, 0)
  | n + 1, attempt, sleep_time =>
      match download attempt with
      | some v => (some v, 0, 1)
      | none =>
          let r := retry_download_go download n (attempt + 1) (sleep_time * 2)
          (r.1, sleep_time + r.2.1, r.2.2 + 1)

/-- Embedding of `sentinelsat_retry_download` (`s2coastalbot/sentinel2.py`):
9 tries, initial sleep time 2, doubling after each failed attempt. -/
def sentinelsat_retry_download {α : Type} (download : Nat → Option α) :
    Option α × Nat × Nat :=
  retry_download_go download 9 0 2

lemma retry_go_succeeds {α : Type} (download : Nat → Option α) :
    ∀ (k n attempt st : Nat), k < n →
      (∀ i, i < k → download (attempt + i) = none) →
      ∀ v, download (attempt + k) = some v →
      retry_download_go download n attempt st = (some v, st * (2 ^ k - 1), k + 1) := by
  intro k
  induction k with
  | zero =>
      intro n attempt st hn _ v hv
      obtain ⟨m, rfl⟩ : ∃ m, n = m + 1 := ⟨n - 1, by omega⟩
      simp only [Nat.add_zero] at hv
      simp [retry_download_go, hv]
  | succ k ih =>
      intro n attempt st hn hfail v hv
      obtain ⟨m, rfl⟩ : ∃ m, n = m + 1 := ⟨n - 1, by omega⟩
      have h0 : download attempt = none := by
        have := hfail 0 (by omega)
        simpa using this
      have hr : retry_download_go download m (attempt + 1) (st * 2) =
          (some v, st * 2 * (2 ^ k - 1), k + 1) := by
        refine ih m (attempt + 1) (st * 2) (by omega) ?_ v ?_
        · intro i hi
          have := hfail (i + 1) (by omega)
          simpa [Nat.add_assoc, Nat.add_comm 1 i] using this
        · have : attempt + 1 + k = attempt + (k + 1) := by omega
          rw [this, hv]
      simp only [retry_download_go, h0, hr]
      have h2k : 1 ≤ 2 ^ k := Nat.one_le_two_pow
      obtain ⟨b, hb⟩ : ∃ b, 2 ^ k = b + 1 := ⟨2 ^ k - 1, by omega⟩
      have hp : 2 ^ (k + 1) = (b + 1) * 2 := by rw [pow_succ, hb]
      rw [hp, hb]
      have h1 : b + 1 - 1 = b := by omega
      have h2 : (b + 1) * 2 - 1 = 2 * b + 1 := by omega
      rw [h1, h2]
      have h3 : st + st * 2 * b = st * (2 * b + 1) := by ring
      rw [h3]

/-- C3: if the underlying download fails exactly `k < 9` times and then
succeeds, the wrapper returns the success result after `k + 1` attempts and
the total slept delay is `2 + 4 + ... + 2 ^ k = 2 ^ (k + 1) - 2` time units
(zero for a first-attempt success). -/
theorem retry_download_backoff {α : Type} (download : Nat → Option α) (k : Nat) (v : α)
    (hk : k < 9) (hfail : ∀ i, i < k → download i = none) (hsucc : download k = some v) :
    sentinelsat_retry_download download = (some v, 2 ^ (k + 1) - 2, k + 1) := by
  have h := retry_go_succeeds download k 9 0 2 hk (by simpa using hfail) v (by simpa using hsucc)
  have hps : 2 ^ (k + 1) = 2 ^ k * 2 := pow_succ 2 k
  have h2k : 1 ≤ 2 ^ k := Nat.one_le_two_pow
  have heq : 2 * (2 ^ k - 1) = 2 ^ (k + 1) - 2 := by omega
  rw [sentinelsat_retry_download, h, heq]

/-- Witness for `retry_download_backoff`: two failures then success returns
the value with total sleep 6 = 2 + 4 after 3 attempts. -/
theorem retry_download_backoff_witness :
    sentinelsat_retry_download (fun n => if n < 2 then none else some 37) =
      (some 37, 2 ^ (2 + 1) - 2, 2 + 1) :=
  retry_download_backoff (fun n => if n < 2 then none else some 37) 2 37
    (by decide) (by decide) (by decide)

lemma retry_go_all_fail {α : Type} (download : Nat → Option α)
    (hfail : ∀ i, download i = none) :
    ∀ (n attempt st : Nat),
      retry_download_go download n attempt st = (none, st * (2 ^ n - 1), n) := by
  intro n
  induction n with
  | zero => intro attempt st; simp [retry_download_go]
  | succ n ih =>
      intro attempt st
      simp only [retry_download_go, hfail attempt, ih (attempt + 1) (st * 2)]
      have h2n : 1 ≤ 2 ^ n := Nat.one_le_two_pow
      obtain ⟨b, hb⟩ : ∃ b, 2 ^ n = b + 1 := ⟨2 ^ n - 1, by omega⟩
      have hp : 2 ^ (n + 1) = (b + 1) * 2 := by rw [pow_succ, hb]
      rw [hp, hb]
      have h1 : b + 1 - 1 = b := by omega
      have h2 : (b + 1) * 2 - 1 = 2 * b + 1 := by omega
      rw [h1, h2]
      have h3 : st + st * 2 * b = st * (2 * b + 1) := by ring
      rw [h3]

/-- C9: if the underlying download fails on every attempt, the wrapper stops
after exactly 9 attempts and returns the failure value `none` (total slept
delay 2 + 4 + ... + 2 ^ 9 = 1022 time units), rather than raising. -/
theorem retry_download_exhausts {α : Type} (download : Nat → Option α)
    (hfail : ∀ i, download i = none) :
    sentinelsat_retry_download download = (none, 1022, 9) := by
  have h := retry_go_all_fail download hfail 9 0 2
  rw [sentinelsat_retry_download, h]
  norm_num

/-- Witness for `retry_download_exhausts`: the always-failing download. -/
theorem retry_download_exhausts_witness :
    sentinelsat_retry_download (fun _ => (none : Option Nat)) = (none, 1022, 9) :=
  retry_download_exhausts (fun _ => none) (fun _ => rfl)

/-- A catalog product candidate, as consumed by `download_tci_image`
(`s2coastalbot/sentinel2.py`): the dataframe columns it reads. -/
structure S2Product where
  uuid : String
  title : String
  filename : String
deriving DecidableEq

/-- Embedding of the candidate-evaluation loop body of `download_tci_image`
(`s2coastalbot/sentinel2.py`): walk the candidate list in order, probe each
for its no-data pixel percentage (`read_nodata_from_l2a_prod`, abstracted as
`probe`; `none` models a metadata download failure), and accept the first
candidate whose percentage is exactly 0. Returns the accepted candidate, if
any, together with the list of candidates probed. -/
def evaluate_candidates (probe : S2Product → Option ℚ) :
    List S2Product → Option S2Product × List S2Product
  | [] => (none, [])
  | p :: rest =>
      if probe p = some 0 then (some p, [p])
      else
        let r := evaluate_candidates probe rest
        (r.1, p :: r.2)

/-- Embedding of one window's candidate evaluation in `download_tci_image`:
the catalog products of the window are first filtered by the novelty check
against the history snapshot (`not p["title"] in downloaded_images["product"]`),
then evaluated in order. -/
def evaluate_window (history_titles : List String) (probe : S2Product → Option ℚ)
    (products : List S2Product) : Option S2Product × List S2Product :=
  evaluate_candidates probe
    (products.filter (fun p => !(history_titles.contains p.title)))

/-- Embedding of the window-search `while` loop of `download_tci_image`
(`s2coastalbot/sentinel2.py`):
`while not found_suitable_product and count + 1 < len(footprint) / 50`,
querying `footprint[count * 50 : (count + 1) * 50]` each iteration.  `query`
models `api.query`/`api.to_dataframe` for one tile window; `fuel` bounds the
recursion and is instantiated with `footprint.length`, which the loop never
exhausts.  Returns the accepted product (if any), the list of windows queried
in order, and the list of candidates probed in order. -/
def select_loop {τ : Type} (history_titles : List String) (probe : S2Product → Option ℚ)
    (query : List τ → List S2Product) (footprint : List τ) :
    Nat → Nat → Option S2Product × List (List τ) × List S2Product
  | 0, _ => (none, [], [])
  | fuel + 1, count =>
      if 50 * (count + 1) < footprint.length then
        let w := (footprint.drop (count * 50)).take 50
        let e := evaluate_window history_titles probe (query w)
        match e.1 with
        | some p => (some p, [w], e.2)
        | none =>
            let r := select_loop history_titles probe query footprint fuel (count + 1)
            (r.1, w :: r.2.1, e.2 ++ r.2.2)
      else (none, [], [])

/-- Embedding of `download_tci_image` (`s2coastalbot/sentinel2.py`).
`history` is the (date, title) rows of `downloaded_images.csv` read at the
start of the run, `now` the timestamp used for the appended row, and
`tci_download p` the per-attempt outcomes of the full TCI download of `p`
(fed to `sentinelsat_retry_download`, yielding the provider-reported date on
success).  The result pairs the final contents of `downloaded_images.csv`
with either a domain error (`sys.exit` cases) or the accepted product and
its date. -/
def download_tci_image {τ : Type} (history : List (String × String))
    (probe : S2Product → Option ℚ) (query : List τ → List S2Product)
    (footprint : List τ) (tci_download : S2Product → Nat → Option String)
    (now : String) :
    List (String × String) × Except String (S2Product × String) :=
  let r := select_loop (history.map Prod.snd) probe query footprint footprint.length 0
  match r.1 with
  | none => (history, .error "No suitable product found in any tile within the footprint")
  | some p =>
      match (sentinelsat_retry_download (tci_download p)).1 with
      | none => (history, .error "Failed sentinelsat download stopped processing")
      | some date => (history ++ [(now, p.title)], .ok (p, date))

/-- The partition of the AOI tile list into consecutive 50-tile windows (the
last window possibly shorter), as described by the specification. -/
def partition50 {τ : Type} : List τ → List (List τ)
  | [] => []
  | x :: rest => ((x :: rest).take 50) :: partition50 ((x :: rest).drop 50)
termination_by xs => xs.length
decreasing_by
  simp only [List.length_drop, List.length_cons]
  omega

lemma partition50_nil {τ : Type} : partition50 ([] : List τ) = [] := by
  rw [partition50]

lemma partition50_cons {τ : Type} (xs : List τ) (h : xs ≠ []) :
    partition50 xs = xs.take 50 :: partition50 (xs.drop 50) := by
  cases xs with
  | nil => exact absurd rfl h
  | cons x rest => rw [partition50]

lemma partition50_ne_nil {τ : Type} (xs : List τ) (h : xs ≠ []) : partition50 xs ≠ [] := by
  rw [partition50_cons xs h]
  exact List.cons_ne_nil _ _

lemma partition50_dropLast_short {τ : Type} (xs : List τ) (h : xs.length ≤ 50) :
    (partition50 xs).dropLast = [] := by
  by_cases hx : xs = []
  · rw [hx, partition50_nil]; rfl
  · rw [partition50_cons xs hx]
    have hd : xs.drop 50 = [] := List.drop_eq_nil_of_le h
    rw [hd, partition50_nil]
    rfl

lemma select_loop_shift {τ : Type} (hist : List String) (probe : S2Product → Option ℚ)
    (query : List τ → List S2Product) (fp : List τ) :
    ∀ (fuel count : Nat),
      select_loop hist probe query fp fuel (count + 1) =
        select_loop hist probe query (fp.drop 50) fuel count := by
  intro fuel
  induction fuel with
  | zero => intro count; rfl
  | succ fuel ih =>
      intro count
      have hc : (50 * (count + 1 + 1) < fp.length) = (50 * (count + 1) < (fp.drop 50).length) := by
        simp only [List.length_drop]
        exact propext ⟨fun h => by omega, fun h => by omega⟩
      have hw : (fp.drop ((count + 1) * 50)).take 50 =
          ((fp.drop 50).drop (count * 50)).take 50 := by
        rw [List.drop_drop]
        have hidx : (count + 1) * 50 = 50 + count * 50 := by ring
        rw [hidx]
      simp only [select_loop, hc, hw, ih (count + 1)]

lemma select_loop_all_reject {τ : Type} (hist : List String) (probe : S2Product → Option ℚ)
    (query : List τ → List S2Product)
    (hrej : ∀ w, (evaluate_window hist probe (query w)).1 = none) :
    ∀ (fuel : Nat) (fp : List τ), fp.length ≤ 50 * fuel →
      (select_loop hist probe query fp fuel 0).1 = none ∧
      (select_loop hist probe query fp fuel 0).2.1 = (partition50 fp).dropLast := by
  intro fuel
  induction fuel with
  | zero =>
      intro fp hlen
      have : fp = [] := List.eq_nil_of_length_eq_zero (by omega)
      subst this
      exact ⟨rfl, by rw [partition50_nil]; rfl⟩
  | succ fuel ih =>
      intro fp hlen
      by_cases hcond : 50 * (0 + 1) < fp.length
      · have hfp : fp ≠ [] := by
          intro h
          rw [h] at hcond
          simp at hcond
        have hd : fp.drop 50 ≠ [] := by
          have : (fp.drop 50).length = fp.length - 50 := List.length_drop 50 fp
          intro h
          rw [h] at this
          simp only [List.length_nil] at this
          omega
        have hrec := select_loop_shift hist probe query fp fuel 0
        have hih := ih (fp.drop 50) (by simp only [List.length_drop]; omega)
        simp only [select_loop, if_pos hcond, hrej, Nat.zero_mul, List.drop_zero, hrec]
        refine ⟨hih.1, ?_⟩
        rw [hih.2, partition50_cons fp hfp,
          List.dropLast_cons_of_ne_nil (partition50_ne_nil _ hd)]
      · simp only [select_loop, if_neg hcond]
        refine ⟨by trivial, ?_⟩
        rw [partition50_dropLast_short fp (by omega)]

/-- C2 (amended): the selector partitions the shuffled tile list into
consecutive 50-tile windows and queries them in order, but it queries only
the windows of the partition other than the last one (for a footprint of at
most 50 tiles it queries none); the 'no suitable product found' error is
reported after those windows — not all windows — have been queried without an
accepted candidate. -/
theorem selector_queries_all_but_last {τ : Type} (history : List (String × String))
    (probe : S2Product → Option ℚ) (query : List τ → List S2Product) (fp : List τ)
    (tci_download : S2Product → Nat → Option String) (now : String)
    (hrej : ∀ w, (evaluate_window (history.map Prod.snd) probe (query w)).1 = none) :
    (select_loop (history.map Prod.snd) probe query fp fp.length 0).2.1 =
        (partition50 fp).dropLast ∧
    download_tci_image history probe query fp tci_download now =
      (history, .error "No suitable product found in any tile within the footprint") := by
  have h := select_loop_all_reject (history.map Prod.snd) probe query hrej fp.length fp
    (by omega)
  refine ⟨h.2, ?_⟩
  simp only [download_tci_image, h.1]

/-- Witness for `selector_queries_all_but_last`: a 60-tile footprint whose
catalog queries return no products; the single queried window is the first
50-tile chunk and the run ends with the domain error. -/
theorem selector_queries_all_but_last_witness :
    (select_loop ((List.map Prod.snd) ([] : List (String × String))) (fun _ => some 0)
        (fun _ => []) (List.range 60) (List.range 60).length 0).2.1 =
      (partition50 (List.range 60)).dropLast ∧
    download_tci_image ([] : List (String × String)) (fun _ => some 0) (fun _ => [])
        (List.range 60) (fun _ _ => some "date") "now" =
      ([], .error "No suitable product found in any tile within the footprint") :=
  selector_queries_all_but_last [] (fun _ => some 0) (fun _ => []) (List.range 60)
    (fun _ _ => some "date") "now" (fun _ => rfl)

/-- C2 counterexample: a 50-tile footprint whose (single-window) partition
contains a window with an acceptable candidate; the loop condition
`count + 1 < len(footprint) / 50` is false at `count = 0`, so the window is
never queried and the run reports 'no suitable product found' even though a
suitable product exists. -/
theorem selector_c2_counterexample :
    (partition50 (List.range 50)).length = 1 ∧
    (evaluate_window [] (fun _ => some 0)
        ((fun _ => [S2Product.mk "u" "t" "f"]) (List.range 50))).1 =
      some (S2Product.mk "u" "t" "f") ∧
    download_tci_image ([] : List (String × String)) (fun _ => some 0)
        (fun _ => [S2Product.mk "u" "t" "f"]) (List.range 50)
        (fun _ _ => some "date") "now" =
      ([], .error "No suitable product found in any tile within the footprint") := by
  refine ⟨?_, rfl, rfl⟩
  rw [partition50_cons (List.range 50) (by simp), List.drop_eq_nil_of_le (by simp),
    partition50_nil]
  rfl

lemma evaluate_candidates_mem {probe : S2Product → Option ℚ} :
    ∀ (l : List S2Product) (p : S2Product),
      (p ∈ (evaluate_candidates probe l).2 → p ∈ l) ∧
      ((evaluate_candidates probe l).1 = some p → p ∈ l) := by
  intro l
  induction l with
  | nil => intro p; exact ⟨fun h => absurd h (List.not_mem_nil p), fun h => by cases h⟩
  | cons q rest ih =>
      intro p
      by_cases hq : probe q = some 0
      · simp only [evaluate_candidates, if_pos hq]
        constructor
        · intro h
          rw [List.mem_singleton] at h
          exact h ▸ List.mem_cons_self q rest
        · intro h
          rw [Option.some_inj] at h
          exact h ▸ List.mem_cons_self q rest
      · simp only [evaluate_candidates, if_neg hq]
        constructor
        · intro h
          rcases List.mem_cons.mp h with h | h
          · exact h ▸ List.mem_cons_self q rest
          · exact List.mem_cons_of_mem q ((ih p).1 h)
        · intro h
          exact List.mem_cons_of_mem q ((ih p).2 h)

lemma evaluate_window_novel (hist : List String) (probe : S2Product → Option ℚ)
    (products : List S2Product) (p : S2Product) (hp : p.title ∈ hist) :
    p ∉ (evaluate_window hist probe products).2 ∧
    (evaluate_window hist probe products).1 ≠ some p := by
  have hfilter : p ∉ products.filter (fun q => !(hist.contains q.title)) := by
    intro hmem
    have hkeep := List.of_mem_filter hmem
    simp only [Bool.not_eq_true'] at hkeep
    have hc : hist.contains p.title = true := List.elem_eq_true_of_mem hp
    rw [hc] at hkeep
    cases hkeep
  constructor
  · intro hmem
    exact hfilter ((evaluate_candidates_mem _ p).1 hmem)
  · intro hacc
    exact hfilter ((evaluate_candidates_mem _ p).2 hacc)

lemma select_loop_novel {τ : Type} (hist : List String) (probe : S2Product → Option ℚ)
    (query : List τ → List S2Product) (fp : List τ) (p : S2Product) (hp : p.title ∈ hist) :
    ∀ (fuel count : Nat),
      p ∉ (select_loop hist probe query fp fuel count).2.2 ∧
      (select_loop hist probe query fp fuel count).1 ≠ some p := by
  intro fuel
  induction fuel with
  | zero =>
      intro count
      exact ⟨List.not_mem_nil p, fun h => by cases h⟩
  | succ fuel ih =>
      intro count
      by_cases hcond : 50 * (count + 1) < fp.length
      · simp only [select_loop, if_pos hcond]
        set w := (fp.drop (count * 50)).take 50 with hw
        have hew := evaluate_window_novel hist probe (query w) p hp
        cases he : (evaluate_window hist probe (query w)).1 with
        | some q =>
            simp only [he]
            refine ⟨fun hmem => hew.1 hmem, fun hacc => ?_⟩
            rw [Option.some_inj] at hacc
            exact hew.2 (hacc ▸ he)
        | none =>
            simp only [he]
            refine ⟨?_, (ih (count + 1)).2⟩
            intro hmem
            rcases List.mem_append.mp hmem with h | h
            · exact hew.1 h
            · exact (ih (count + 1)).1 h
      · simp only [select_loop, if_neg hcond]
        exact ⟨List.not_mem_nil p, fun h => by cases h⟩

/-- C4: a catalog candidate whose title appears in the history snapshot read
at the start of the run is never probed for no-data, never accepted by the
selection loop, and never the product downloaded or returned by the run. -/
theorem novelty_filter {τ : Type} (history : List (String × String))
    (probe : S2Product → Option ℚ) (query : List τ → List S2Product) (fp : List τ)
    (tci_download : S2Product → Nat → Option String) (now : String) (p : S2Product)
    (hp : p.title ∈ history.map Prod.snd) :
    p ∉ (select_loop (history.map Prod.snd) probe query fp fp.length 0).2.2 ∧
    (select_loop (history.map Prod.snd) probe query fp fp.length 0).1 ≠ some p ∧
    (∀ q date, (download_tci_image history probe query fp tci_download now).2 =
        .ok (q, date) → q ≠ p) := by
  have h := select_loop_novel (history.map Prod.snd) probe query fp p hp fp.length 0
  refine ⟨h.1, h.2, ?_⟩
  intro q date hok hqp
  subst hqp
  unfold download_tci_image at hok
  cases hacc : (select_loop (history.map Prod.snd) probe query fp fp.length 0).1 with
  | none =>
      simp only [hacc] at hok
      exact Except.noConfusion hok
  | some r =>
      simp only [hacc] at hok
      cases hdl : (sentinelsat_retry_download (tci_download r)).1 with
      | none =>
          simp only [hdl] at hok
          exact Except.noConfusion hok
      | some date2 =>
          simp only [hdl, Except.ok.injEq, Prod.mk.injEq] at hok
          rw [hok.1] at hacc
          exact h.2 hacc

/-- Witness for `novelty_filter`: history already contains title "X"; the
catalog returns a candidate titled "X" for every window; it is never probed,
never accepted, and the run errors out rather than returning it. -/
theorem novelty_filter_witness :
    (S2Product.mk "u" "X" "f") ∉ (select_loop ((([("d", "X")] : List (String × String))).map
        Prod.snd) (fun _ => some 0) (fun _ => [S2Product.mk "u" "X" "f"]) (List.range 60)
        (List.range 60).length 0).2.2 ∧
    (select_loop (([("d", "X")] : List (String × String)).map Prod.snd) (fun _ => some 0)
        (fun _ => [S2Product.mk "u" "X" "f"]) (List.range 60)
        (List.range 60).length 0).1 ≠ some (S2Product.mk "u" "X" "f") ∧
    (∀ q date, (download_tci_image ([("d", "X")] : List (String × String)) (fun _ => some 0)
        (fun _ => [S2Product.mk "u" "X" "f"]) (List.range 60)
        (fun _ _ => some "dt") "now").2 = .ok (q, date) → q ≠ S2Product.mk "u" "X" "f") :=
  novelty_filter [("d", "X")] (fun _ => some 0) (fun _ => [S2Product.mk "u" "X" "f"])
    (List.range 60) (fun _ _ => some "dt") "now" (S2Product.mk "u" "X" "f") (by simp)

/-- C5: once the selection loop has accepted candidate `p`, the run's outcome
is decided by the retried full TCI download of `p` alone: on success the
history gains exactly the one entry `(now, p.title)` and the run returns `p`
with the reported date; on failure after retries the run ends with the
download domain error, the history is unchanged, and no other candidate is
consulted. -/
theorem accepted_candidate_run {τ : Type} (history : List (String × String))
    (probe : S2Product → Option ℚ) (query : List τ → List S2Product) (fp : List τ)
    (tci_download : S2Product → Nat → Option String) (now : String) (p : S2Product)
    (hacc : (select_loop (history.map Prod.snd) probe query fp fp.length 0).1 = some p) :
    (∀ date, (sentinelsat_retry_download (tci_download p)).1 = some date →
      download_tci_image history probe query fp tci_download now =
        (history ++ [(now, p.title)], .ok (p, date)) ∧
      (download_tci_image history probe query fp tci_download now).1.length =
        history.length + 1) ∧
    ((sentinelsat_retry_download (tci_download p)).1 = none →
      download_tci_image history probe query fp tci_download now =
        (history, .error "Failed sentinelsat download stopped processing")) := by
  constructor
  · intro date hdl
    have heq : download_tci_image history probe query fp tci_download now =
        (history ++ [(now, p.title)], .ok (p, date)) := by
      simp only [download_tci_image, hacc, hdl]
    refine ⟨heq, ?_⟩
    rw [heq]
    simp
  · intro hdl
    simp only [download_tci_image, hacc, hdl]

/-- Witness for `accepted_candidate_run`: a single-product catalog on a
60-tile footprint; with a succeeding TCI download the history gains exactly
the accepted title, and with a failing one it stays empty. -/
theorem accepted_candidate_run_witness :
    download_tci_image ([] : List (String × String)) (fun _ => some 0)
        (fun _ => [S2Product.mk "u" "t" "f"]) (List.range 60)
        (fun _ _ => some "date") "now" =
      ([("now", "t")], .ok (S2Product.mk "u" "t" "f", "date")) ∧
    download_tci_image ([] : List (String × String)) (fun _ => some 0)
        (fun _ => [S2Product.mk "u" "t" "f"]) (List.range 60)
        (fun _ _ => none) "now" =
      ([], .error "Failed sentinelsat download stopped processing") :=
  ⟨((accepted_candidate_run [] (fun _ => some 0) (fun _ => [S2Product.mk "u" "t" "f"])
      (List.range 60) (fun _ _ => some "date") "now" (S2Product.mk "u" "t" "f")
      rfl).1 "date" rfl).1,
   (accepted_candidate_run [] (fun _ => some 0) (fun _ => [S2Product.mk "u" "t" "f"])
      (List.range 60) (fun _ _ => none) "now" (S2Product.mk "u" "t" "f")
      rfl).2 rfl⟩

/-- A geometry value as produced by shapely's `footprint.intersection` in
`postprocess_tci_image` (`s2coastalbot/postprocessing.py`): a line string
(its list of vertex coordinates), a multi line string (a list of line
strings), or any other geometry type (ignored by the `isinstance` dispatch).
Coordinates are (lon, lat) pairs, modelled as rationals. -/
inductive PyGeometry where
  | lineString (coords : List (ℚ × ℚ))
  | multiLineString (lines : List (List (ℚ × ℚ)))
  | otherGeom
deriving DecidableEq

/-- A geometry is empty when it has no coordinates (shapely `is_empty` for
the constructors the source inspects; any other geometry contributes no
line). -/
def PyGeometry.isEmptyGeom : PyGeometry → Bool
  | .lineString cs => cs.isEmpty
  | .multiLineString ls => ls.all (fun l => l.isEmpty)
  | .otherGeom => true

/-- Embedding of the `for geom in intersection` dispatch of
`postprocess_tci_image`: `LineString`s are appended, the members of
`MultiLineString`s are extended, other geometry types are skipped. -/
def collect_lines : List PyGeometry → List (List (ℚ × ℚ))
  | [] => []
  | .lineString cs :: rest => cs :: collect_lines rest
  | .multiLineString ls :: rest => ls ++ collect_lines rest
  | .otherGeom :: rest => collect_lines rest

/-- `INPUT_MAX_SIZE` constant of `s2coastalbot/postprocessing.py`. -/
def INPUT_MAX_SIZE : Int := 10980

/-- `SUBSET_SIZE` constant of `s2coastalbot/postprocessing.py`. -/
def SUBSET_SIZE : Int := 1000

/-- Number of no-data pixels of a raster window, as computed by
`count_nonzero(array, axis=0) == 0` in `postprocess_tci_image`: the window is
modelled as rows of pixels, each pixel the list of its band values at that
position (the transpose of the numpy `(band, row, col)` cube); a pixel is
no-data iff all its band values are zero. -/
def nodata_count (arr : List (List (List Nat))) : Nat :=
  ((arr.map (fun row => (row.filter (fun pix => pix.all (fun v => v == 0))).length)).sum)

/-- Embedding of the candidate-center loop of `postprocess_tci_image`:
for each candidate subset center, map it to a pixel (`toPixel` models the
lat/lon → UTM transform composed with `rasterio.transform.rowcol`), clamp the
1000×1000 window inside the 10980×10980 image with `get_window`, read the
window (`read`), and select the first center whose window has no no-data
pixel. -/
def subset_loop (toPixel : ℚ × ℚ → Int × Int)
    (read : Int × Int × Int × Int → List (List (List Nat))) :
    List (ℚ × ℚ) → Option (ℚ × ℚ)
  | [] => none
  | pt :: rest =>
      let center_pixel := toPixel pt
      let wnd := get_window center_pixel SUBSET_SIZE SUBSET_SIZE INPUT_MAX_SIZE INPUT_MAX_SIZE
      let arr := read wnd
      if nodata_count arr = 0 then some pt
      else subset_loop toPixel read rest

/-- Embedding of `postprocess_tci_image` (`s2coastalbot/postprocessing.py`).
`intersection` is the per-feature result of `footprint.intersection` on the
coastline layer, `shuffle` stands for `random.shuffle`, and `toPixel`/`read`
abstract the coordinate transforms and the windowed raster read.  The result
pairs the list of output files written (empty, or the single postprocessed
output) with either the raised error or the returned value; `.ok none`
models the `(None, None)` return. -/
def postprocess_tci_image (intersection : List PyGeometry)
    (shuffle : List (ℚ × ℚ) → List (ℚ × ℚ))
    (toPixel : ℚ × ℚ → Int × Int)
    (read : Int × Int × Int × Int → List (List (List Nat))) :
    List String × Except String (Option (ℚ × ℚ)) :=
  let coastline_subsets := (collect_lines intersection).filter (fun l => !l.isEmpty)
  if coastline_subsets = [] then ([], .error "No intersection with coastline found")
  else
    let coastline_points := coastline_subsets.flatten
    let pts := (shuffle coastline_points).take 100
    match subset_loop toPixel read pts with
    | some pt => (["postprocessed.png"], .ok (some pt))
    | none => ([], .ok none)

lemma collect_lines_all_empty (intersection : List PyGeometry)
    (hempty : ∀ g ∈ intersection, g.isEmptyGeom = true) :
    (collect_lines intersection).filter (fun l => !l.isEmpty) = [] := by
  induction intersection with
  | nil => rfl
  | cons g rest ih =>
      have hg := hempty g (List.mem_cons_self g rest)
      have hrest := ih (fun x hx => hempty x (List.mem_cons_of_mem g hx))
      cases g with
      | lineString cs =>
          simp only [PyGeometry.isEmptyGeom] at hg
          simp [collect_lines, List.filter_cons, hg, hrest]
      | multiLineString ls =>
          simp only [PyGeometry.isEmptyGeom, List.all_eq_true] at hg
          simp only [collect_lines, List.filter_append, hrest]
          rw [List.filter_eq_nil_iff.mpr (fun l hl => by simp [hg l hl])]
          simp
      | otherGeom =>
          simp only [collect_lines, hrest]

/-- C6: when the scene footprint has an empty intersection with every feature
of the coastline layer, `postprocess_tci_image` raises the 'no intersection
with coastline' error and writes no output file. -/
theorem no_coastline_intersection (intersection : List PyGeometry)
    (shuffle : List (ℚ × ℚ) → List (ℚ × ℚ)) (toPixel : ℚ × ℚ → Int × Int)
    (read : Int × Int × Int × Int → List (List (List Nat)))
    (hempty : ∀ g ∈ intersection, g.isEmptyGeom = true) :
    postprocess_tci_image intersection shuffle toPixel read =
      ([], .error "No intersection with coastline found") := by
  have h := collect_lines_all_empty intersection hempty
  simp [postprocess_tci_image, h]

/-- Witness for `no_coastline_intersection`: one empty line string. -/
theorem no_coastline_intersection_witness :
    postprocess_tci_image [PyGeometry.lineString []] (fun l => l) (fun _ => (0, 0))
        (fun _ => []) =
      ([], .error "No intersection with coastline found") :=
  no_coastline_intersection [PyGeometry.lineString []] (fun l => l) (fun _ => (0, 0))
    (fun _ => []) (by decide)

lemma subset_loop_all_nodata (toPixel : ℚ × ℚ → Int × Int)
    (read : Int × Int × Int × Int → List (List (List Nat)))
    (hnodata : ∀ pt : ℚ × ℚ,
      nodata_count (read (get_window (toPixel pt) SUBSET_SIZE SUBSET_SIZE
        INPUT_MAX_SIZE INPUT_MAX_SIZE)) ≠ 0) :
    ∀ pts : List (ℚ × ℚ), subset_loop toPixel read pts = none := by
  intro pts
  induction pts with
  | nil => rfl
  | cons pt rest ih =>
      simp only [subset_loop, if_neg (hnodata pt), ih]

/-- C7: the subset extractor examines at most 100 shuffled candidate centers;
when every candidate's window contains a no-data pixel (a pixel being no-data
iff all bands are simultaneously zero there) it returns the `(None, None)`
sentinel as a normal value — not an error — and writes no output file. -/
theorem no_nodata_free_subset (intersection : List PyGeometry)
    (shuffle : List (ℚ × ℚ) → List (ℚ × ℚ)) (toPixel : ℚ × ℚ → Int × Int)
    (read : Int × Int × Int × Int → List (List (List Nat)))
    (hne : (collect_lines intersection).filter (fun l => !l.isEmpty) ≠ [])
    (hnodata : ∀ pt : ℚ × ℚ,
      nodata_count (read (get_window (toPixel pt) SUBSET_SIZE SUBSET_SIZE
        INPUT_MAX_SIZE INPUT_MAX_SIZE)) ≠ 0) :
    ((shuffle ((collect_lines intersection).filter
        (fun l => !l.isEmpty)).flatten).take 100).length ≤ 100 ∧
    postprocess_tci_image intersection shuffle toPixel read = ([], .ok none) := by
  constructor
  · exact le_trans (List.length_take_le 100 _) (le_refl 100)
  · simp only [postprocess_tci_image, if_neg hne,
      subset_loop_all_nodata toPixel read hnodata]

/-- Witness for `no_nodata_free_subset`: a two-point coastline inside a
raster whose only pixel has all bands zero. -/
theorem no_nodata_free_subset_witness :
    ((((fun (l : List (ℚ × ℚ)) => l)
        ((collect_lines [PyGeometry.lineString [(0, 0), (1, 1)]]).filter
          (fun l => !l.isEmpty)).flatten).take 100).length) ≤ 100 ∧
    postprocess_tci_image [PyGeometry.lineString [(0, 0), (1, 1)]] (fun l => l)
        (fun _ => (0, 0)) (fun _ => [[[0]]]) = ([], .ok none) :=
  no_nodata_free_subset [PyGeometry.lineString [(0, 0), (1, 1)]] (fun l => l)
    (fun _ => (0, 0)) (fun _ => [[[0]]]) (by decide)
    (fun _ => by show nodata_count [[[0]]] ≠ 0; decide)

/-- A node of the CDSE OData product node tree consumed by `search_nodes`
(`s2coastalbot/cdse.py`): its `Name`, its `ContentLength` (0 marks a
directory) and, for directories, the child nodes reached through the
`Nodes.uri` request. -/
inductive NodeTree where
  | node (name : String) (contentLength : Nat) (children : List NodeTree)

/-- Embedding of `search_nodes` (`s2coastalbot/cdse.py`), with the glob
`fnmatch.fnmatch(·, pattern)` abstracted as the predicate `matchp`.  The
source recurses into a directory node with `search_nodes(uri, pattern)` —
without forwarding `exclude`, which therefore resets to `False` below the
top level — and for file nodes appends on `exclude and not match`, else on
`match` (so with `exclude` set a matching node is still appended by the
`elif match` branch). -/
def search_nodes (matchp : String → Bool) : Bool → List NodeTree → List NodeTree
  | _, [] => []
  | exclude, NodeTree.node nm cl ch :: rest =>
      if cl = 0 then
        search_nodes matchp false ch ++ search_nodes matchp exclude rest
      else
        let m := matchp nm
        if exclude && !m then NodeTree.node nm cl ch :: search_nodes matchp exclude rest
        else if m then NodeTree.node nm cl ch :: search_nodes matchp exclude rest
        else search_nodes matchp exclude rest

/-- C10 (code bug): with `exclude = True`, `search_nodes` still returns the
matching file node (the `elif match` branch fires), and inside a
subdirectory it applies plain include semantics because the recursive call
drops `exclude`.  On the flat two-node tree of the repository's own
`test_search_nodes` (which asserts that only the non-matching node is
returned), the code returns both nodes; on a directory containing the same
two files it returns exactly the matching one. -/
theorem search_nodes_exclude_bug :
    search_nodes (fun s => s == "TCI_10m.jp2") true
        [NodeTree.node "TCI_10m.jp2" 1 [], NodeTree.node "B08_10m.jp2" 1 []] =
      [NodeTree.node "TCI_10m.jp2" 1 [], NodeTree.node "B08_10m.jp2" 1 []] ∧
    [NodeTree.node "TCI_10m.jp2" 1 [], NodeTree.node "B08_10m.jp2" 1 []] ≠
      [NodeTree.node "B08_10m.jp2" 1 []] ∧
    search_nodes (fun s => s == "TCI_10m.jp2") true
        [NodeTree.node "folder" 0
          [NodeTree.node "TCI_10m.jp2" 1 [], NodeTree.node "B08_10m.jp2" 1 []]] =
      [NodeTree.node "TCI_10m.jp2" 1 []] := by
  refine ⟨by simp [search_nodes], ?_, by simp [search_nodes]⟩
  intro h
  injection h with h1 h2
  injection h1 with hn
  exact absurd hn (by decide)
